import Mathlib

/-!
Verification of the FinCalc calculation dispatch and validation core.

The development shallowly embeds:
- `src/app/operations/financial.py` — engine command selection
  (`selectCmd`, the body of `run_fsharp_cmd`), subprocess invocation with
  `check=True` and `float(result.stdout.strip())` parsing, the catch-all
  exception handler returning the sentinel `0.0`, and the four
  category-specific argument builders;
- `src/app/schemas/calculations.py` — the pydantic validation pipeline of
  `CalculationBase` (type membership, list shape, `min_items`, model
  validator) and of `CalculationUpdate`;
- the arithmetic `divide` (its module `app/operations/__init__` is not
  under `src/`; it is modelled from the spec, consistently with the unit
  tests in `src/tests/unit/test_calculation.py`).

Numbers are carried as `Rat` (exact arithmetic). Python `float()` literal
parsing is modelled on finite decimal tokens (optional sign, digits with an
optional decimal point, optional exponent); the special floating-point
tokens `inf`/`nan` and digit-group underscores are outside the model, as
are non-ASCII digits.
-/

/-! ## Python string primitives used by `run_fsharp_cmd` -/

/-- The ASCII whitespace characters removed by Python `str.strip()`
(space, tab, newline, carriage return, vertical tab, form feed). -/
def pyIsSpace (c : Char) : Bool :=
  c = ' ' || c = '\t' || c = '\n' || c = '\r' || c = Char.ofNat 11 || c = Char.ofNat 12

/-- Python `str.strip()` on a character list: drop whitespace from both ends. -/
def stripList (cs : List Char) : List Char :=
  ((cs.dropWhile pyIsSpace).reverse.dropWhile pyIsSpace).reverse

/-- Numeric value of a digit string (most significant first). -/
def natOfDigits (cs : List Char) : Nat :=
  cs.foldl (fun a c => 10 * a + (c.toNat - 48)) 0

/-- A nonempty all-digit string. -/
def pyDigits (cs : List Char) : Bool :=
  !cs.isEmpty && cs.all Char.isDigit

/-- The mantissa part of a Python float literal: `digits`, `digits.digits?`,
or `.digits` (at least one digit overall). -/
def pyMantissa (cs : List Char) : Option Rat :=
  match cs.dropWhile Char.isDigit with
  | [] => if cs.isEmpty then none else some ((natOfDigits cs : Nat) : Rat)
  | c :: fracRest =>
    if c = '.' && fracRest.all Char.isDigit
        && !((cs.takeWhile Char.isDigit).isEmpty && fracRest.isEmpty) then
      some (((natOfDigits (cs.takeWhile Char.isDigit) : Nat) : Rat)
        + ((natOfDigits fracRest : Nat) : Rat) / ((10 : Rat) ^ fracRest.length))
    else
      none

/-- The exponent part of a Python float literal: optional sign, then digits. -/
def pyExpPart (cs : List Char) : Option Int :=
  match cs with
  | [] => none
  | c :: t =>
    if c = '+' then (if pyDigits t then some ((natOfDigits t : Nat) : Int) else none)
    else if c = '-' then (if pyDigits t then some (-((natOfDigits t : Nat) : Int)) else none)
    else (if pyDigits cs then some ((natOfDigits cs : Nat) : Int) else none)

/-- Scale a mantissa by a signed power of ten. -/
def applyExp (m : Rat) (e : Int) : Rat :=
  if 0 ≤ e then m * (10 : Rat) ^ e.toNat else m / (10 : Rat) ^ (-e).toNat

/-- True on characters other than the exponent markers `e`/`E`. -/
def notExpChar (c : Char) : Bool :=
  c != 'e' && c != 'E'

/-- An unsigned Python float literal: mantissa with an optional `e`/`E`
exponent part. -/
def pyUnsigned (cs : List Char) : Option Rat :=
  match cs.dropWhile notExpChar with
  | [] => pyMantissa cs
  | _ :: expChars =>
    match pyMantissa (cs.takeWhile notExpChar), pyExpPart expChars with
    | some m, some e => some (applyExp m e)
    | _, _ => none

/-- Python `float(s)` on a character list (finite decimal literals):
optional sign, then an unsigned literal.  `none` models `ValueError`. -/
def pyFloatChars (cs : List Char) : Option Rat :=
  match cs with
  | [] => none
  | c :: t =>
    if c = '+' then pyUnsigned t
    else if c = '-' then (pyUnsigned t).map (fun v => -v)
    else pyUnsigned cs

/-! ## Engine locator and invoker (`src/app/operations/financial.py`) -/

/-- Default of `os.getenv("FSHARP_EXEC_PATH", ...)` in `financial.py`. -/
def FSHARP_EXEC_default : String := "./calculations/bin/Release/net6.0/FinanceCore"

/-- The process environment probed by `run_fsharp_cmd` on each call:
the configured binary path `FSHARP_EXEC`, `os.path.exists`, and the result
of `shutil.which("dotnet")` (`none` when the runner is not discoverable). -/
structure EngineEnv where
  fsharpExec : String
  pathExists : String → Bool
  whichDotnet : Option String

/-- The command-selection logic at the top of `run_fsharp_cmd`:
`if not os.path.exists(FSHARP_EXEC) and shutil.which("dotnet"): cmd = ["dotnet", "run", "--project", "./calculations/FinanceCore.fsproj", "--"] + args else: cmd = [FSHARP_EXEC] + args`. -/
def selectCmd (env : EngineEnv) (args : List String) : List String :=
  if !env.pathExists env.fsharpExec && env.whichDotnet.isSome then
    ["dotnet", "run", "--project", "./calculations/FinanceCore.fsproj", "--"] ++ args
  else
    env.fsharpExec :: args

/-- Outcome of `subprocess.run(cmd, capture_output=True, text=True)`:
either the spawn itself fails (`OSError`/`FileNotFoundError`), or the
process completes with a return code and captured stdout. -/
inductive SpawnResult
| spawnError
| completed (returncode : Int) (stdout : List Char)

/-- The exceptions that can escape the `try` body of `run_fsharp_cmd`:
a spawn failure, `CalledProcessError` (from `check=True` on a nonzero
return code), or `ValueError` (from `float()` on non-numeric stdout). -/
inductive EngineError
| spawnFailure
| calledProcessError (returncode : Int)
| valueError

/-- The `try` body of `run_fsharp_cmd`:
`result = subprocess.run(cmd, capture_output=True, text=True, check=True); return float(result.stdout.strip())`.
`spawn` maps a command vector to the outcome of executing it. -/
def runBody (spawn : List String → SpawnResult) (cmd : List String) :
    Except EngineError Rat :=
  match spawn cmd with
  | .spawnError => .error .spawnFailure
  | .completed code out =>
    if code = 0 then
      match pyFloatChars (stripList out) with
      | some v => .ok v
      | none => .error .valueError
    else
      .error (.calledProcessError code)

/-- `run_fsharp_cmd(args)`: select the command from the current environment,
run the `try` body, and on `except Exception` return the sentinel `0.0`.
The function is total in the embedding — no exception propagates to the
caller, mirroring the catch-all `except` clause. -/
def run_fsharp_cmd (env : EngineEnv) (spawn : List String → SpawnResult)
    (args : List String) : Rat :=
  match runBody spawn (selectCmd env args) with
  | .ok v => v
  | .error _ => 0

/-! ## Category-specific builders (`calculate_bond` etc.)

`pyStr` models Python `str()` applied to a numeric argument; the builders
are parametric in it since the spec treats the decimal rendering as opaque. -/

/-- `calculate_bond(face, coupon, market, years, freq)`:
`run_fsharp_cmd(["bond", str(face), str(coupon), str(market), str(years), str(freq)])`. -/
def calculate_bond (env : EngineEnv) (spawn : List String → SpawnResult)
    (pyStr : Rat → String) (face coupon market years freq : Rat) : Rat :=
  run_fsharp_cmd env spawn
    ["bond", pyStr face, pyStr coupon, pyStr market, pyStr years, pyStr freq]

/-- `calculate_bond` with the default parameter `freq=2`. -/
def calculate_bond_default (env : EngineEnv) (spawn : List String → SpawnResult)
    (pyStr : Rat → String) (face coupon market years : Rat) : Rat :=
  calculate_bond env spawn pyStr face coupon market years 2

/-- `calculate_wacc(equity, debt, cost_e, cost_d, tax)`:
`run_fsharp_cmd(["wacc", str(equity), str(debt), str(cost_e), str(cost_d), str(tax)])`. -/
def calculate_wacc (env : EngineEnv) (spawn : List String → SpawnResult)
    (pyStr : Rat → String) (equity debt cost_e cost_d tax : Rat) : Rat :=
  run_fsharp_cmd env spawn
    ["wacc", pyStr equity, pyStr debt, pyStr cost_e, pyStr cost_d, pyStr tax]

/-- `calculate_option(spot, strike, time, rate, vol, kind)`: the `kind`
category string is passed through as-is. -/
def calculate_option (env : EngineEnv) (spawn : List String → SpawnResult)
    (pyStr : Rat → String) (spot strike time rate vol : Rat) (kind : String) : Rat :=
  run_fsharp_cmd env spawn
    ["option", pyStr spot, pyStr strike, pyStr time, pyStr rate, pyStr vol, kind]

/-- `calculate_npv(rate, flows)`: the flows are stringified and joined with
commas into a single argument: `",".join(map(str, flows))`. -/
def calculate_npv (env : EngineEnv) (spawn : List String → SpawnResult)
    (pyStr : Rat → String) (rate : Rat) (flows : List Rat) : Rat :=
  run_fsharp_cmd env spawn
    ["npv", pyStr rate, String.intercalate "," (flows.map pyStr)]

/-! ## Calculation schemas (`src/app/schemas/calculations.py`)

The pydantic pipeline of `CalculationBase` runs, in order: the `type`
field's `mode="before"` validator, the `inputs` field's `mode="before"`
validator, the `min_items=2` field constraint, then the `mode='after'`
model validator.  Pydantic collects field errors in field-definition order
and runs the model validator only once the fields validate, so the error
surfaced first is that of the earliest failing stage; the embedding
short-circuits at that stage.  Coercion of individual list elements to
float is not modelled (inputs arrive as `List Rat`). -/

/-- The `CalculationType` enumeration. -/
inductive CalculationType
| addition
| subtraction
| multiplication
| division
deriving DecidableEq

/-- The raw `type` payload: a string, or a non-string value. -/
inductive TypeInput
| str (s : String)
| nonStr
deriving DecidableEq

/-- The raw `inputs` payload: a list of numbers, or a non-list value. -/
inductive InputsInput
| list (xs : List Rat)
| nonList
deriving DecidableEq

/-- The validation errors raised by the schemas, by raising site:
`unknownOperation` — "Type must be one of: ..." (type before-validator);
`invalidEnum` — pydantic's own enum error on `CalculationUpdate.type`;
`notAList` — "Input should be a valid list" (inputs before-validator);
`minItemsViolation` — pydantic's "List should have at least 2 items"
(`min_items=2`); `insufficientOperands` — "At least two numbers are
required for calculation" (model validator); `divisionByZero` —
"Cannot divide by zero" (model validator). -/
inductive ValError
| unknownOperation
| invalidEnum
| notAList
| minItemsViolation
| insufficientOperands
| divisionByZero
deriving DecidableEq

/-- Both the `min_items` error and the model validator's length error
report "too few inputs": the spec's `InsufficientOperands` class. -/
def isInsufficientClass : ValError → Bool
| .minItemsViolation => true
| .insufficientOperands => true
| _ => false

/-- The string values of `CalculationType` (`{e.value for e in CalculationType}`). -/
def allowedTypeValues : List String :=
  ["addition", "subtraction", "multiplication", "division"]

/-- Python `str.lower()` (ASCII). -/
def pyLower (s : String) : String :=
  String.mk (s.data.map Char.toLower)

/-- Exact (case-sensitive) match of a string against the enum values,
as pydantic's own enum coercion performs. -/
def parseCalcType (s : String) : Option CalculationType :=
  if s = "addition" then some .addition
  else if s = "subtraction" then some .subtraction
  else if s = "multiplication" then some .multiplication
  else if s = "division" then some .division
  else none

/-- `CalculationBase.validate_type` (`mode="before"`): requires
`isinstance(v, str)` and `v.lower()` among the enum values, returning
`v.lower()` which pydantic then coerces to the enum. -/
def validate_type : TypeInput → Except ValError CalculationType
| .nonStr => .error .unknownOperation
| .str s =>
  match parseCalcType (pyLower s) with
  | some t => .ok t
  | none => .error .unknownOperation

/-- `CalculationBase.check_inputs_is_list` (`mode="before"`): requires
`isinstance(v, list)`. -/
def check_inputs_is_list : InputsInput → Except ValError (List Rat)
| .nonList => .error .notAList
| .list xs => .ok xs

/-- The `min_items=2` constraint on the `inputs` field. -/
def checkMinItems (xs : List Rat) : Except ValError (List Rat) :=
  if xs.length < 2 then .error .minItemsViolation else .ok xs

/-- A validated `CalculationBase`. -/
structure CalculationBase where
  type : CalculationType
  inputs : List Rat
deriving DecidableEq

/-- `CalculationBase.validate_inputs` (`mode='after'`): at least two
inputs; for division no zero among `inputs[1:]` (exact comparison). -/
def validate_inputs (c : CalculationBase) : Except ValError CalculationBase :=
  if c.inputs.length < 2 then .error .insufficientOperands
  else if c.type = .division ∧ (c.inputs.drop 1).any (fun x => x == 0) then
    .error .divisionByZero
  else .ok c

/-- Construction of `CalculationBase` from a raw payload: the pydantic
stages in order, stopping at the first failure. -/
def mkCalculationBase (ty : TypeInput) (inp : InputsInput) :
    Except ValError CalculationBase :=
  match validate_type ty with
  | .error e => .error e
  | .ok t =>
    match check_inputs_is_list inp with
    | .error e => .error e
    | .ok xs =>
      match checkMinItems xs with
      | .error e => .error e
      | .ok xs2 => validate_inputs ⟨t, xs2⟩

/-- A validated `CalculationUpdate` (both fields optional). -/
structure CalculationUpdate where
  type : Option CalculationType
  inputs : Option (List Rat)
deriving DecidableEq

/-- Validation of `CalculationUpdate.type` (`Optional[CalculationType]`,
no custom validator): pydantic's exact enum-value coercion. -/
def parseTypeUpdate : Option TypeInput → Except ValError (Option CalculationType)
| none => .ok none
| some .nonStr => .error .invalidEnum
| some (.str s) =>
  match parseCalcType s with
  | some t => .ok (some t)
  | none => .error .invalidEnum

/-- Validation of `CalculationUpdate.inputs`
(`Optional[List[float]]`, `min_items=2`). -/
def parseInputsUpdate : Option InputsInput → Except ValError (Option (List Rat))
| none => .ok none
| some .nonList => .error .notAList
| some (.list xs) =>
  if xs.length < 2 then .error .minItemsViolation else .ok (some xs)

/-- `CalculationUpdate.validate_inputs` (`mode='after'`): only
`if self.inputs is not None and len(self.inputs) < 2` — no division rule. -/
def CalculationUpdate.validate_inputs (u : CalculationUpdate) :
    Except ValError CalculationUpdate :=
  match u.inputs with
  | some xs => if xs.length < 2 then .error .insufficientOperands else .ok u
  | none => .ok u

/-- Construction of `CalculationUpdate` from a raw payload. -/
def mkCalculationUpdate (ty : Option TypeInput) (inp : Option InputsInput) :
    Except ValError CalculationUpdate :=
  match parseTypeUpdate ty with
  | .error e => .error e
  | .ok t =>
    match parseInputsUpdate inp with
    | .error e => .error e
    | .ok xs => CalculationUpdate.validate_inputs ⟨t, xs⟩

/-! ## Arithmetic evaluator -/

/-- A Python number: `int` or `float`. -/
inductive PyNumber
| pint (n : Int)
| pfloat (q : Rat)
deriving DecidableEq

/-- Numeric value of a Python number. -/
def PyNumber.toRat : PyNumber → Rat
| .pint n => (n : Rat)
| .pfloat q => q

/-- The error raised by `divide` on a zero divisor
("Cannot divide by zero!", a `ValueError` per the unit tests). -/
inductive ArithError
| divisionByZero
deriving DecidableEq

/-- Modelled from the spec: the arithmetic evaluator module
`app/operations` (`add`, `subtract`, `multiply`, `divide`) is imported by
`src/tests/unit/test_calculation.py` but its source is not under `src/`.
Per §4.2 of the spec, `divide(a,b)` "fails with `DivisionByZero` when
`b == 0` exactly (no epsilon tolerance — exact zero comparison); otherwise
returns a/b as a floating-point value even when both operands are
integral (division always widens to float)". -/
def divide (a b : PyNumber) : Except ArithError PyNumber :=
  if b.toRat = 0 then .error .divisionByZero
  else .ok (.pfloat (a.toRat / b.toRat))

/-- The characters that can occur in a successfully parsed float token:
digits, decimal point, signs, exponent markers. -/
def tokenChar (c : Char) : Bool :=
  c.isDigit || c = '.' || c = '+' || c = '-' || c = 'e' || c = 'E'

/-! ## Helper lemmas on `dropWhile` and the float-token alphabet -/

theorem dropWhile_head_false {α : Type} {p : α → Bool} :
    ∀ {l : List α} {c : α} {t : List α}, l.dropWhile p = c :: t → p c = false := by
  intro l
  induction l with
  | nil => intro c t h; simp [List.dropWhile] at h
  | cons a l ih =>
    intro c t h
    by_cases hp : p a
    · rw [List.dropWhile_cons_of_pos hp] at h
      exact ih h
    · rw [List.dropWhile_cons_of_neg hp] at h
      injection h with h1 h2
      subst h1
      simpa using hp

theorem dropWhile_append_all {α : Type} {p : α → Bool} {w : List α}
    (hw : ∀ c ∈ w, p c = true) (x : List α) :
    (w ++ x).dropWhile p = x.dropWhile p := by
  induction w with
  | nil => simp
  | cons a w ih =>
    simp only [List.cons_append]
    rw [List.dropWhile_cons_of_pos (hw a (by simp))]
    exact ih (fun c hc => hw c (by simp [hc]))

theorem pyMantissa_chars {cs : List Char} {v : Rat} (h : pyMantissa cs = some v) :
    ∀ c ∈ cs, tokenChar c = true := by
  intro c hc
  unfold pyMantissa at h
  rcases hd : cs.dropWhile Char.isDigit with _ | ⟨c0, rest⟩ <;> rw [hd] at h
  · have hall : ∀ x ∈ cs, Char.isDigit x = true := List.dropWhile_eq_nil_iff.mp hd
    simp [tokenChar, hall c hc]
  · dsimp only at h
    by_cases hcond : (c0 = '.' && rest.all Char.isDigit
        && !((cs.takeWhile Char.isDigit).isEmpty && rest.isEmpty)) = true
    · simp only [Bool.and_eq_true, decide_eq_true_eq] at hcond
      obtain ⟨⟨hc0, hall⟩, _⟩ := hcond
      have hsplit := List.takeWhile_append_dropWhile (p := Char.isDigit) (l := cs)
      rw [hd] at hsplit
      rw [← hsplit] at hc
      rcases List.mem_append.mp hc with hmem | hmem
      · simp [tokenChar, List.mem_takeWhile_imp hmem]
      · rcases List.mem_cons.mp hmem with rfl | hmem2
        · rw [hc0]; decide
        · simp [tokenChar, List.all_eq_true.mp hall c hmem2]
    · rw [if_neg hcond] at h
      cases h

theorem pyDigits_chars {l : List Char} (hl : pyDigits l = true) :
    ∀ x ∈ l, tokenChar x = true := by
  intro x hx
  have h2 : l.all Char.isDigit = true := by
    simp only [pyDigits, Bool.and_eq_true] at hl
    exact hl.2
  simp [tokenChar, List.all_eq_true.mp h2 x hx]

theorem pyExpPart_chars {cs : List Char} {e : Int} (h : pyExpPart cs = some e) :
    ∀ c ∈ cs, tokenChar c = true := by
  intro c hc
  rcases cs with _ | ⟨c0, t⟩
  · simp at hc
  · unfold pyExpPart at h
    dsimp only at h
    by_cases h0 : c0 = '+'
    · by_cases hd : pyDigits t = true
      · rcases List.mem_cons.mp hc with rfl | hmem
        · rw [h0]; decide
        · exact pyDigits_chars hd c hmem
      · rw [if_pos h0, if_neg hd] at h; cases h
    · rw [if_neg h0] at h
      by_cases h1 : c0 = '-'
      · by_cases hd : pyDigits t = true
        · rcases List.mem_cons.mp hc with rfl | hmem
          · rw [h1]; decide
          · exact pyDigits_chars hd c hmem
        · rw [if_pos h1, if_neg hd] at h; cases h
      · rw [if_neg h1] at h
        by_cases hd : pyDigits (c0 :: t) = true
        · exact pyDigits_chars hd c hc
        · rw [if_neg hd] at h; cases h

theorem pyUnsigned_chars {cs : List Char} {v : Rat} (h : pyUnsigned cs = some v) :
    ∀ c ∈ cs, tokenChar c = true := by
  intro c hc
  unfold pyUnsigned at h
  rcases hd : cs.dropWhile notExpChar with _ | ⟨d, expChars⟩ <;> rw [hd] at h
  · exact pyMantissa_chars h c hc
  · dsimp only at h
    rcases hm : pyMantissa (cs.takeWhile notExpChar) with _ | m <;> rw [hm] at h
    · cases h
    · rcases he : pyExpPart expChars with _ | e <;> rw [he] at h
      · cases h
      · have hsplit := List.takeWhile_append_dropWhile (p := notExpChar) (l := cs)
        rw [hd] at hsplit
        rw [← hsplit] at hc
        rcases List.mem_append.mp hc with hmem | hmem
        · exact pyMantissa_chars hm c hmem
        · rcases List.mem_cons.mp hmem with rfl | hmem2
          · have hne : notExpChar c = false := dropWhile_head_false hd
            have : c = 'e' ∨ c = 'E' := by
              by_contra hcon
              push_neg at hcon
              simp [notExpChar, hcon.1, hcon.2] at hne
            rcases this with rfl | rfl <;> decide
          · exact pyExpPart_chars he c hmem2

theorem pyFloatChars_chars {cs : List Char} {v : Rat} (h : pyFloatChars cs = some v) :
    ∀ c ∈ cs, tokenChar c = true := by
  intro c hc
  rcases cs with _ | ⟨c0, t⟩
  · simp at hc
  · unfold pyFloatChars at h
    dsimp only at h
    split_ifs at h with h0 h1
    · rcases List.mem_cons.mp hc with rfl | hmem
      · rw [h0]; decide
      · exact pyUnsigned_chars h c hmem
    · rcases List.mem_cons.mp hc with rfl | hmem
      · rw [h1]; decide
      · rcases hu : pyUnsigned t with _ | u
        · rw [hu] at h; cases h
        · exact pyUnsigned_chars hu c hmem
    · exact pyUnsigned_chars h c hc

theorem tokenChar_not_space {c : Char} (h : tokenChar c = true) : pyIsSpace c = false := by
  rcases (by simpa [tokenChar, or_assoc] using h :
      Char.isDigit c = true ∨ c = '.' ∨ c = '+' ∨ c = '-' ∨ c = 'e' ∨ c = 'E') with
    hd | rfl | rfl | rfl | rfl | rfl
  · rw [Bool.eq_false_iff]
    intro hsp
    rcases (by simpa [pyIsSpace, or_assoc] using hsp :
        c = ' ' ∨ c = '\t' ∨ c = '\n' ∨ c = '\r' ∨ c = Char.ofNat 11 ∨ c = Char.ofNat 12) with
      rfl | rfl | rfl | rfl | rfl | rfl <;> exact absurd hd (by decide)
  all_goals decide

theorem stripList_token {w1 t w2 : List Char}
    (h1 : ∀ c ∈ w1, pyIsSpace c = true) (h2 : ∀ c ∈ w2, pyIsSpace c = true)
    (ht : ∀ c ∈ t, pyIsSpace c = false) (hne : t ≠ []) :
    stripList (w1 ++ t ++ w2) = t := by
  obtain ⟨c, t', rfl⟩ := List.exists_cons_of_ne_nil hne
  unfold stripList
  rw [List.append_assoc, dropWhile_append_all h1, List.cons_append,
    List.dropWhile_cons_of_neg (by simp [ht c (by simp)]), ← List.cons_append,
    List.reverse_append, dropWhile_append_all (fun d hd => h2 d (List.mem_reverse.mp hd))]
  have hrne : (c :: t').reverse ≠ [] := by simp
  obtain ⟨d, r, hdr⟩ := List.exists_cons_of_ne_nil hrne
  have hdmem : d ∈ (c :: t').reverse := by rw [hdr]; simp
  rw [hdr, List.dropWhile_cons_of_neg (by simp [ht d (List.mem_reverse.mp hdmem)]),
    ← hdr, List.reverse_reverse]

/-! ## Claims about the engine invoker and builders -/

/-- Claim C1: for every argument vector, whenever the engine invocation
body fails (spawn failure because the binary is absent and no fallback
runner spawned a process, `CalledProcessError` from a nonzero exit, or
`ValueError` from unparsable output), `run_fsharp_cmd` returns the
sentinel failure value `0.0`.  No exception reaches the caller: the
embedding of `run_fsharp_cmd` is a total function into `Rat`, mirroring
the catch-all `except Exception` clause. -/
theorem run_fsharp_cmd_failure_sentinel
    (env : EngineEnv) (spawn : List String → SpawnResult) (args : List String)
    (e : EngineError) (h : runBody spawn (selectCmd env args) = .error e) :
    run_fsharp_cmd env spawn args = 0 := by
  unfold run_fsharp_cmd
  rw [h]

theorem run_fsharp_cmd_failure_sentinel_witness :
    run_fsharp_cmd ⟨FSHARP_EXEC_default, fun _ => false, none⟩
      (fun _ => .spawnError) ["bond", "1000"] = 0 :=
  run_fsharp_cmd_failure_sentinel _ _ _ .spawnFailure rfl

/-- Claim C2: the command is chosen fresh from the environment on every
invocation (the last conjunct exhibits `run_fsharp_cmd` as consulting
`selectCmd` on the environment passed to that very call): the binary path
prefix is used whenever the binary exists; the `dotnet run` fallback is
used when the binary is absent and a `dotnet` runner is discoverable; and
when the binary is absent and no runner is discoverable the binary path is
used anyway, deferring failure to spawn time. -/
theorem selectCmd_strategy (env : EngineEnv) (args : List String) :
    (env.pathExists env.fsharpExec = true →
      selectCmd env args = env.fsharpExec :: args)
    ∧ (env.pathExists env.fsharpExec = false → env.whichDotnet.isSome = true →
      selectCmd env args =
        ["dotnet", "run", "--project", "./calculations/FinanceCore.fsproj", "--"] ++ args)
    ∧ (env.pathExists env.fsharpExec = false → env.whichDotnet = none →
      selectCmd env args = env.fsharpExec :: args)
    ∧ (∀ spawn, run_fsharp_cmd env spawn args =
        match runBody spawn (selectCmd env args) with
        | .ok v => v
        | .error _ => 0) := by
  refine ⟨fun h => ?_, fun h hd => ?_, fun h hd => ?_, fun spawn => rfl⟩
  · simp [selectCmd, h]
  · simp [selectCmd, h, hd]
  · simp [selectCmd, h, hd]

theorem selectCmd_strategy_witness :
    selectCmd ⟨FSHARP_EXEC_default, fun _ => false, some "/usr/local/bin/dotnet"⟩
      ["npv", "0.1", "100,200"] =
      ["dotnet", "run", "--project", "./calculations/FinanceCore.fsproj", "--",
        "npv", "0.1", "100,200"] :=
  (selectCmd_strategy _ _).2.1 rfl rfl

/-- Claim C3: if the spawned process exits with status zero and its stdout
is exactly one numeric token optionally surrounded by whitespace, the
token parsed as a float is returned; stdout whose stripped content is not
a numeric token, or a nonzero exit status, yields the sentinel `0.0`
instead. -/
theorem run_fsharp_cmd_stdout_contract
    (env : EngineEnv) (spawn : List String → SpawnResult) (args : List String) :
    (∀ (w1 t w2 : List Char) (v : Rat),
      spawn (selectCmd env args) = .completed 0 (w1 ++ t ++ w2) →
      (∀ c ∈ w1, pyIsSpace c = true) → (∀ c ∈ w2, pyIsSpace c = true) →
      pyFloatChars t = some v →
      run_fsharp_cmd env spawn args = v)
    ∧ (∀ out : List Char,
      spawn (selectCmd env args) = .completed 0 out →
      pyFloatChars (stripList out) = none →
      run_fsharp_cmd env spawn args = 0)
    ∧ (∀ (code : Int) (out : List Char),
      spawn (selectCmd env args) = .completed code out → code ≠ 0 →
      run_fsharp_cmd env spawn args = 0) := by
  refine ⟨?_, ?_, ?_⟩
  · intro w1 t w2 v hs h1 h2 hv
    have hne : t ≠ [] := by
      rintro rfl
      rw [show pyFloatChars [] = none from rfl] at hv
      cases hv
    have ht : ∀ c ∈ t, pyIsSpace c = false :=
      fun c hc => tokenChar_not_space (pyFloatChars_chars hv c hc)
    unfold run_fsharp_cmd runBody
    rw [hs]
    dsimp only
    rw [if_pos rfl, stripList_token h1 h2 ht hne, hv]
  · intro out hs hnone
    unfold run_fsharp_cmd runBody
    rw [hs]
    dsimp only
    rw [if_pos rfl, hnone]
  · intro code out hs hcode
    unfold run_fsharp_cmd runBody
    rw [hs]
    dsimp only
    rw [if_neg hcode]

theorem run_fsharp_cmd_stdout_contract_witness :
    run_fsharp_cmd ⟨FSHARP_EXEC_default, fun _ => true, none⟩
      (fun _ => .completed 0 ([' '] ++ ['4', '2'] ++ ['\n'])) ["wacc"] = 42 :=
  (run_fsharp_cmd_stdout_contract _ _ _).1 [' '] ['4', '2'] ['\n'] 42 rfl
    (by decide) (by decide) (by decide)

/-- Claim C4: each category-specific builder passes the engine exactly the
fixed positional argument vector of its protocol with all numeric values
stringified: bond (with `freq` defaulting to 2), wacc, option (the `kind`
string passed through), and npv with the comma-joined flow sequence as a
single argument. -/
theorem builders_argument_vectors (env : EngineEnv)
    (spawn : List String → SpawnResult) (pyStr : Rat → String) :
    (∀ face coupon market years freq : Rat,
      calculate_bond env spawn pyStr face coupon market years freq =
        run_fsharp_cmd env spawn
          ["bond", pyStr face, pyStr coupon, pyStr market, pyStr years, pyStr freq])
    ∧ (∀ face coupon market years : Rat,
      calculate_bond_default env spawn pyStr face coupon market years =
        run_fsharp_cmd env spawn
          ["bond", pyStr face, pyStr coupon, pyStr market, pyStr years, pyStr 2])
    ∧ (∀ equity debt cost_e cost_d tax : Rat,
      calculate_wacc env spawn pyStr equity debt cost_e cost_d tax =
        run_fsharp_cmd env spawn
          ["wacc", pyStr equity, pyStr debt, pyStr cost_e, pyStr cost_d, pyStr tax])
    ∧ (∀ (spot strike time rate vol : Rat) (kind : String),
      calculate_option env spawn pyStr spot strike time rate vol kind =
        run_fsharp_cmd env spawn
          ["option", pyStr spot, pyStr strike, pyStr time, pyStr rate, pyStr vol, kind])
    ∧ (∀ (rate : Rat) (flows : List Rat),
      calculate_npv env spawn pyStr rate flows =
        run_fsharp_cmd env spawn
          ["npv", pyStr rate, String.intercalate "," (flows.map pyStr)]) :=
  ⟨fun _ _ _ _ _ => rfl, fun _ _ _ _ => rfl, fun _ _ _ _ _ => rfl,
    fun _ _ _ _ _ _ => rfl, fun _ _ => rfl⟩

/-! ## Claims about the validation schemas -/

theorem validate_type_ok_iff (s : String) :
    (∃ t, validate_type (.str s) = .ok t) ↔ pyLower s ∈ allowedTypeValues := by
  have hiff : ∀ s2 : String, (parseCalcType s2).isSome = true ↔ s2 ∈ allowedTypeValues := by
    intro s2
    unfold parseCalcType allowedTypeValues
    split_ifs with h1 h2 h3 h4 <;> simp_all
  rw [← hiff]
  unfold validate_type
  rcases hp : parseCalcType (pyLower s) with _ | t
  · simp [hp]
  · simp [hp]

theorem mk_list_eval {ty : TypeInput} {t : CalculationType}
    (hty : validate_type ty = .ok t) (xs : List Rat) :
    mkCalculationBase ty (.list xs) =
      if xs.length < 2 then .error .minItemsViolation
      else validate_inputs ⟨t, xs⟩ := by
  unfold mkCalculationBase check_inputs_is_list checkMinItems
  rw [hty]
  by_cases h : xs.length < 2 <;> simp [h]

theorem validate_inputs_eval (t : CalculationType) (xs : List Rat)
    (hlen : ¬ xs.length < 2) :
    validate_inputs ⟨t, xs⟩ =
      if t = .division ∧ (xs.drop 1).any (fun x => x == 0) = true then
        .error .divisionByZero
      else .ok ⟨t, xs⟩ := by
  unfold validate_inputs
  rw [if_neg hlen]

/-- Claim C5: the type rule accepts exactly the string payloads whose
lowercase form is a recognized calculation type; every other payload
(unrecognized string such as "modulo", or a non-string) makes the
construction of `CalculationBase` fail with the UnknownOperation-class
error. -/
theorem validate_type_membership :
    (∀ ty : TypeInput, (∃ t, validate_type ty = .ok t) ↔
      ∃ s, ty = .str s ∧ pyLower s ∈ allowedTypeValues)
    ∧ (∀ ty inp, (¬ ∃ s, ty = .str s ∧ pyLower s ∈ allowedTypeValues) →
      mkCalculationBase ty inp = .error .unknownOperation) := by
  have hfail : ∀ ty : TypeInput, (¬ ∃ s, ty = .str s ∧ pyLower s ∈ allowedTypeValues) →
      validate_type ty = .error .unknownOperation := by
    intro ty hno
    rcases ty with s | _
    · rcases hp : parseCalcType (pyLower s) with _ | t
      · unfold validate_type
        dsimp only
        rw [hp]
      · exfalso
        refine hno ⟨s, rfl, (validate_type_ok_iff s).mp ⟨t, ?_⟩⟩
        unfold validate_type
        dsimp only
        rw [hp]
    · rfl
  constructor
  · intro ty
    rcases ty with s | _
    · rw [validate_type_ok_iff s]
      constructor
      · intro hmem
        exact ⟨s, rfl, hmem⟩
      · rintro ⟨s2, hs2, hmem⟩
        injection hs2 with hss
        rw [hss]
        exact hmem
    · constructor
      · rintro ⟨t, ht⟩
        cases ht
      · rintro ⟨s, hs, _⟩
        cases hs
  · intro ty inp hno
    unfold mkCalculationBase
    rw [hfail ty hno]

theorem validate_type_membership_witness :
    mkCalculationBase (.str "modulo") (.list [10, 2]) = .error .unknownOperation :=
  validate_type_membership.2 _ _
    (by
      rintro ⟨s, hs, hmem⟩
      injection hs with hss
      rw [← hss] at hmem
      exact absurd hmem (by decide))

/-- Claim C6: for every recognized operation type, an inputs list of
length below two makes construction fail with an InsufficientOperands-class
error, and every list of length at least two passes (except the
division-by-zero case). -/
theorem arity_rule :
    (∀ (ty : TypeInput) (t : CalculationType) (xs : List Rat),
      validate_type ty = .ok t → xs.length < 2 →
      ∃ e, mkCalculationBase ty (.list xs) = .error e ∧ isInsufficientClass e = true)
    ∧ (∀ (ty : TypeInput) (t : CalculationType) (xs : List Rat),
      validate_type ty = .ok t → 2 ≤ xs.length →
      (¬ (t = .division ∧ ∃ x ∈ xs.drop 1, x = 0)) →
      mkCalculationBase ty (.list xs) = .ok ⟨t, xs⟩) := by
  constructor
  · intro ty t xs hty hlen
    rw [mk_list_eval hty, if_pos hlen]
    exact ⟨.minItemsViolation, rfl, rfl⟩
  · intro ty t xs hty hlen hno
    have hlen2 : ¬ xs.length < 2 := by omega
    rw [mk_list_eval hty, if_neg hlen2, validate_inputs_eval t xs hlen2, if_neg ?hcond]
    case hcond =>
      rintro ⟨hdiv, hany⟩
      exact hno ⟨hdiv, by simpa using List.any_eq_true.mp hany⟩

theorem arity_rule_witness :
    ∃ e, mkCalculationBase (.str "addition") (.list [1]) = .error e ∧
      isInsufficientClass e = true :=
  arity_rule.1 (.str "addition") .addition [1] rfl (by decide)

/-- Claim C7: for type division (with the arity rule satisfied),
construction fails with the DivisionByZero-class error precisely when some
input after the first is exactly zero: a zero divisor is rejected, no zero
divisor means success (a zero in the first position alone does not cause
rejection), and for non-division types zeros anywhere are accepted. -/
theorem division_by_zero_rule :
    (∀ (ty : TypeInput) (xs : List Rat),
      validate_type ty = .ok .division → 2 ≤ xs.length →
      ((∃ x ∈ xs.drop 1, x = 0) →
        mkCalculationBase ty (.list xs) = .error .divisionByZero)
      ∧ ((∀ x ∈ xs.drop 1, x ≠ 0) →
        mkCalculationBase ty (.list xs) = .ok ⟨.division, xs⟩))
    ∧ (∀ (ty : TypeInput) (t : CalculationType) (xs : List Rat),
      validate_type ty = .ok t → t ≠ .division → 2 ≤ xs.length →
      mkCalculationBase ty (.list xs) = .ok ⟨t, xs⟩) := by
  constructor
  · intro ty xs hty hlen
    have hlen2 : ¬ xs.length < 2 := by omega
    constructor
    · intro hzero
      rw [mk_list_eval hty, if_neg hlen2, validate_inputs_eval _ xs hlen2, if_pos ?hc]
      case hc =>
        refine ⟨rfl, List.any_eq_true.mpr ?_⟩
        obtain ⟨x, hx, hx0⟩ := hzero
        exact ⟨x, hx, by simpa using hx0⟩
    · intro hnz
      rw [mk_list_eval hty, if_neg hlen2, validate_inputs_eval _ xs hlen2, if_neg ?hc2]
      case hc2 =>
        rintro ⟨_, hany⟩
        obtain ⟨x, hx, hx0⟩ := List.any_eq_true.mp hany
        exact hnz x hx (by simpa using hx0)
  · intro ty t xs hty hne hlen
    have hlen2 : ¬ xs.length < 2 := by omega
    rw [mk_list_eval hty, if_neg hlen2, validate_inputs_eval t xs hlen2, if_neg ?hc3]
    case hc3 =>
      rintro ⟨hdiv, _⟩
      exact hne hdiv

theorem division_by_zero_rule_witness :
    mkCalculationBase (.str "division") (.list [10, 0]) = .error .divisionByZero ∧
    mkCalculationBase (.str "division") (.list [100, 2]) = .ok ⟨.division, [100, 2]⟩ ∧
    mkCalculationBase (.str "division") (.list [0, 5]) = .ok ⟨.division, [0, 5]⟩ :=
  ⟨(division_by_zero_rule.1 (.str "division") [10, 0] rfl (by decide)).1 ⟨0, by decide, rfl⟩,
    (division_by_zero_rule.1 (.str "division") [100, 2] rfl (by decide)).2 (by decide),
    (division_by_zero_rule.1 (.str "division") [0, 5] rfl (by decide)).2 (by decide)⟩

/-- Claim C8: validation stages run in the fixed order membership, shape,
arity, semantic; the error surfaced is that of the earliest failing rule,
and a payload failing any rule is never reported as a validated success
(construction succeeds exactly when every rule passes). -/
theorem rule_order_first_failure :
    (∀ (ty : TypeInput) (inp : InputsInput),
      (∃ c, mkCalculationBase ty inp = .ok c) ↔
      (∃ (t : CalculationType) (xs : List Rat), validate_type ty = .ok t ∧
        inp = .list xs ∧ 2 ≤ xs.length ∧
        ¬(t = .division ∧ ∃ x ∈ xs.drop 1, x = 0)))
    ∧ (∀ ty inp, validate_type ty = .error .unknownOperation →
        mkCalculationBase ty inp = .error .unknownOperation)
    ∧ (∀ (ty : TypeInput) (t : CalculationType), validate_type ty = .ok t →
        mkCalculationBase ty .nonList = .error .notAList)
    ∧ (∀ (ty : TypeInput) (t : CalculationType) (xs : List Rat),
        validate_type ty = .ok t → xs.length < 2 →
        mkCalculationBase ty (.list xs) = .error .minItemsViolation)
    ∧ (∀ (ty : TypeInput) (xs : List Rat),
        validate_type ty = .ok .division → 2 ≤ xs.length →
        (∃ x ∈ xs.drop 1, x = 0) →
        mkCalculationBase ty (.list xs) = .error .divisionByZero) := by
  refine ⟨?_, ?_, ?_, ?_, ?_⟩
  · intro ty inp
    constructor
    · rintro ⟨c, hc⟩
      rcases hty : validate_type ty with e | t
      · unfold mkCalculationBase at hc
        rw [hty] at hc
        cases hc
      · rcases inp with xs | _
        · rw [mk_list_eval hty] at hc
          by_cases hlen : xs.length < 2
          · rw [if_pos hlen] at hc
            cases hc
          · rw [if_neg hlen, validate_inputs_eval t xs hlen] at hc
            by_cases hcond : t = .division ∧ (xs.drop 1).any (fun x => x == 0) = true
            · rw [if_pos hcond] at hc
              cases hc
            · refine ⟨t, xs, ?_, rfl, by omega, ?_⟩
              · rfl
              · rintro ⟨hdiv, x, hx, hx0⟩
                exact hcond ⟨hdiv, List.any_eq_true.mpr ⟨x, hx, by simpa using hx0⟩⟩
        · unfold mkCalculationBase check_inputs_is_list at hc
          rw [hty] at hc
          dsimp only at hc
          cases hc
    · rintro ⟨t, xs, hty, rfl, hlen, hcond⟩
      have hlen2 : ¬ xs.length < 2 := by omega
      rw [mk_list_eval hty, if_neg hlen2, validate_inputs_eval t xs hlen2, if_neg ?hc8]
      case hc8 =>
        rintro ⟨hdiv, hany⟩
        obtain ⟨x, hx, hx0⟩ := List.any_eq_true.mp hany
        exact hcond ⟨hdiv, x, hx, by simpa using hx0⟩
      exact ⟨⟨t, xs⟩, rfl⟩
  · intro ty inp h
    unfold mkCalculationBase
    rw [h]
  · intro ty t hty
    unfold mkCalculationBase check_inputs_is_list
    rw [hty]
  · intro ty t xs hty hlen
    rw [mk_list_eval hty, if_pos hlen]
  · intro ty xs hty hlen hzero
    have hlen2 : ¬ xs.length < 2 := by omega
    rw [mk_list_eval hty, if_neg hlen2, validate_inputs_eval _ xs hlen2, if_pos ?hc9]
    case hc9 =>
      obtain ⟨x, hx, hx0⟩ := hzero
      exact ⟨rfl, List.any_eq_true.mpr ⟨x, hx, by simpa using hx0⟩⟩

theorem rule_order_first_failure_witness :
    mkCalculationBase (.str "modulo") (.list [1]) = .error .unknownOperation :=
  rule_order_first_failure.2.1 (.str "modulo") (.list [1]) rfl

/-- Claim C10: the update schema does not apply the division-by-zero rule:
for every inputs list of length at least two, construction of
`CalculationUpdate` succeeds even for type division with zeros after the
first position; only the minimum-length check is enforced on the update
path. -/
theorem update_skips_division_rule :
    (∀ xs : List Rat, 2 ≤ xs.length →
      mkCalculationUpdate (some (.str "division")) (some (.list xs)) =
        .ok ⟨some .division, some xs⟩)
    ∧ (∀ xs : List Rat, xs.length < 2 →
      ∃ e, mkCalculationUpdate (some (.str "division")) (some (.list xs)) = .error e ∧
        isInsufficientClass e = true) := by
  have hty : parseTypeUpdate (some (.str "division")) = .ok (some .division) := rfl
  constructor
  · intro xs hlen
    have hlen2 : ¬ xs.length < 2 := by omega
    unfold mkCalculationUpdate parseInputsUpdate CalculationUpdate.validate_inputs
    rw [hty]
    dsimp only
    rw [if_neg hlen2]
    dsimp only
    rw [if_neg hlen2]
  · intro xs hlen
    unfold mkCalculationUpdate parseInputsUpdate
    rw [hty]
    dsimp only
    rw [if_pos hlen]
    exact ⟨.minItemsViolation, rfl, rfl⟩

theorem update_skips_division_rule_witness :
    mkCalculationUpdate (some (.str "division")) (some (.list [10, 0])) =
      .ok ⟨some .division, some [10, 0]⟩ :=
  update_skips_division_rule.1 [10, 0] (by decide)

/-- Claim C9: `divide` fails with the DivisionByZero-class error exactly
when the divisor is zero (exact comparison, for every dividend), and for
every nonzero divisor returns the quotient as a floating-point value (the
`pfloat` constructor) even when both operands are integral. -/
theorem divide_exact_zero :
    (∀ a b : PyNumber, PyNumber.toRat b = 0 → divide a b = .error .divisionByZero)
    ∧ (∀ a b : PyNumber, PyNumber.toRat b ≠ 0 →
        divide a b = .ok (.pfloat (PyNumber.toRat a / PyNumber.toRat b))) := by
  constructor
  · intro a b h
    unfold divide
    rw [if_pos h]
  · intro a b h
    unfold divide
    rw [if_neg h]

theorem divide_exact_zero_witness :
    divide (.pint 6) (.pint 0) = .error .divisionByZero ∧
    divide (.pint 6) (.pint 3) = .ok (.pfloat 2) := by
  constructor
  · exact divide_exact_zero.1 (.pint 6) (.pint 0) (by decide)
  · rw [divide_exact_zero.2 (.pint 6) (.pint 3) (by decide)]
    norm_num [PyNumber.toRat]
